import Mathlib

/-!
Verification of the section-property engine: primitive shapes
(`CircleSection`, `RectangleSection`), decorators (`TranslatedSection`,
`RotatedSection`, `WeightedSection`), the aggregator (`CombinedSection`)
and the free function `principal_axis`.  The floating-point scalar type
`Float` is modelled by the real numbers, so every formula is read in
exact arithmetic; the sorted summations of the code are kept in the
definitions and shown to equal the plain sums.
-/

open Real

noncomputable section

namespace Strust

/-- Sort a list of reals by ascending absolute value, the model of
`v.sort_by(|a, b| a.abs().total_cmp(&b.abs()))` used before summation. -/
def sortAbs (l : List ℝ) : List ℝ := l.mergeSort (fun a b => |a| ≤ |b|)

/-- Degrees-to-radians conversion, the model of `Float::to_radians`. -/
def to_radians (deg : ℝ) : ℝ := deg * (π / 180)

/-- Model of `Float::atan2` (the C convention, signed zeros collapsed):
`atan2 y x` is the angle of the point `(x, y)`, with `atan2 0 0 = 0`. -/
def atan2 (y x : ℝ) : ℝ :=
  if 0 < x then arctan (y / x)
  else if x < 0 then
    (if 0 ≤ y then arctan (y / x) + π else arctan (y / x) - π)
  else
    (if 0 < y then π / 2 else if y < 0 then -(π / 2) else 0)

/-- Section trees: the primitives (`CircleSection`, `RectangleSection`), the
decorators (`TranslatedSection`, `RotatedSection`, `WeightedSection`) and the
aggregator (`CombinedSection`), all implementers of the `Section` trait. -/
inductive Sec where
  | circle (radius : ℝ) (offset : ℝ × ℝ)
  | rectangle (size : ℝ × ℝ) (offset : ℝ × ℝ)
  | translated (origin : Sec) (offset : ℝ × ℝ)
  | rotated (origin : Sec) (angle : ℝ)
  | weighted (origin : Sec) (weight : ℝ)
  | combined (sections : List Sec)

/-- The four outputs of the `Section` trait: `area`, `centroid`,
`moment_of_inertia = [Jy, Jx]` and `product_of_inertia = Jxy`. -/
structure Props where
  area : ℝ
  centroid : ℝ × ℝ
  moi : ℝ × ℝ
  poi : ℝ

/-- Evaluate the four `Section` methods of a section tree; each case is
translated from the corresponding `impl Section for ...` block. -/
def props : Sec → Props
  | .circle r o =>
      { area := r * r * to_radians 180
        centroid := o
        moi := ((r * r + o.1 * o.1 * 4) * r * r * to_radians 45,
                (r * r + o.2 * o.2 * 4) * r * r * to_radians 45)
        poi := r * r * to_radians 180 * (o.1 * o.2) }
  | .rectangle s o =>
      { area := |s.1 * s.2|
        centroid := (o.1 + s.1 * 0.5, o.2 + s.2 * 0.5)
        moi := (|(s.1 * s.1 / 3 + (s.1 + o.1) * o.1) * (s.1 * s.2)|,
                |(s.2 * s.2 / 3 + (s.2 + o.2) * o.2) * (s.1 * s.2)|)
        poi := (|s.1| * (s.1 * 0.5 + o.1)) * (|s.2| * (s.2 * 0.5 + o.2)) }
  | .translated t o =>
      let p := props t
      { area := p.area
        centroid := (p.centroid.1 + o.1, p.centroid.2 + o.2)
        moi := (p.moi.1 + (o.1 + p.centroid.1 * 2) * o.1 * p.area,
                p.moi.2 + (o.2 + p.centroid.2 * 2) * o.2 * p.area)
        poi := p.poi +
          (sortAbs [p.centroid.2 * o.1, p.centroid.1 * o.2, o.1 * o.2]).sum * p.area }
  | .rotated t angle =>
      let p := props t
      let a2 := angle * (-2)
      { area := p.area
        centroid := (p.centroid.1 * Real.cos angle - p.centroid.2 * Real.sin angle,
                     p.centroid.2 * Real.cos angle + p.centroid.1 * Real.sin angle)
        moi := ((sortAbs [(p.moi.1 + p.moi.2) * 0.5,
                          (p.moi.1 - p.moi.2) * (Real.cos a2 * 0.5),
                          p.poi * Real.sin a2]).sum,
                (sortAbs [(p.moi.1 + p.moi.2) * 0.5,
                          (p.moi.1 - p.moi.2) * (Real.cos a2 * 0.5) * (-1),
                          p.poi * Real.sin a2 * (-1)]).sum)
        poi := (p.moi.2 - p.moi.1) * Real.sin a2 * 0.5 + p.poi * Real.cos a2 }
  | .weighted t w =>
      let p := props t
      { area := p.area * w
        centroid := p.centroid
        moi := (p.moi.1 * w, p.moi.2 * w)
        poi := p.poi * w }
  | .combined l =>
      let ps := l.attach.map fun s => props s.1
      let a := (sortAbs (ps.map Props.area)).sum
      { area := a
        centroid := ((sortAbs (ps.map fun p => p.centroid.1 * p.area)).sum / a,
                     (sortAbs (ps.map fun p => p.centroid.2 * p.area)).sum / a)
        moi := ((sortAbs (ps.map fun p => p.moi.1)).sum,
                (sortAbs (ps.map fun p => p.moi.2)).sum)
        poi := (sortAbs (ps.map Props.poi)).sum }
decreasing_by
  all_goals simp_wf
  all_goals try omega
  all_goals (have h := List.sizeOf_lt_of_mem s.2; omega)

/-- The `Section::area` method. -/
def area (s : Sec) : ℝ := (props s).area

/-- The `Section::centroid` method. -/
def centroid (s : Sec) : ℝ × ℝ := (props s).centroid

/-- The `Section::moment_of_inertia` method, returning `[Jy, Jx]`. -/
def moment_of_inertia (s : Sec) : ℝ × ℝ := (props s).moi

/-- The `Section::product_of_inertia` method, returning `Jxy`. -/
def product_of_inertia (s : Sec) : ℝ := (props s).poi

/-- The free function `principal_axis`, translated from
`(section.product_of_inertia() * -2.0).atan2(jx - jy) * 0.5` where
`[jy, jx] = section.moment_of_inertia()`. -/
def principal_axis (s : Sec) : ℝ :=
  atan2 (product_of_inertia s * (-2))
    ((moment_of_inertia s).2 - (moment_of_inertia s).1) * 0.5

/-- Modelled from the spec: the principal-axis solver as the specification
describes it, first recovering the centroidal moments
`Jxy_c = Jxy - centroid[0]*centroid[1]*area`, `Jy_c = Jy - centroid[0]^2*area`,
`Jx_c = Jx - centroid[1]^2*area`, then `atan2(-2*Jxy_c, Jx_c - Jy_c) / 2`.
The code's `principal_axis` performs no such correction, so this second
definition exists only to be compared against it. -/
def principal_axis_centroidal (s : Sec) : ℝ :=
  atan2 (-2 * (product_of_inertia s - (centroid s).1 * (centroid s).2 * area s))
    ((moment_of_inertia s).2 - (centroid s).2 ^ 2 * area s -
      ((moment_of_inertia s).1 - (centroid s).1 ^ 2 * area s)) / 2

/-- All weights appearing in `WeightedSection` nodes of the tree are
non-negative. -/
def nonnegWeights : Sec → Prop
  | .circle _ _ => True
  | .rectangle _ _ => True
  | .translated t _ => nonnegWeights t
  | .rotated t _ => nonnegWeights t
  | .weighted t w => 0 ≤ w ∧ nonnegWeights t
  | .combined l => ∀ s ∈ l.attach, nonnegWeights s.1
decreasing_by
  all_goals simp_wf
  all_goals try omega
  all_goals (have h := List.sizeOf_lt_of_mem s.2; omega)

theorem sortAbs_perm (l : List ℝ) : (sortAbs l).Perm l := List.mergeSort_perm l _

theorem sortAbs_sum (l : List ℝ) : (sortAbs l).sum = l.sum :=
  (sortAbs_perm l).sum_eq

theorem to_radians_180 : to_radians 180 = π := by
  rw [to_radians]; ring

theorem to_radians_45 : to_radians 45 = π / 4 := by
  rw [to_radians]; ring

theorem props_circle (r : ℝ) (o : ℝ × ℝ) :
    props (.circle r o) =
      ⟨r * r * to_radians 180, o,
       ((r * r + o.1 * o.1 * 4) * r * r * to_radians 45,
        (r * r + o.2 * o.2 * 4) * r * r * to_radians 45),
       r * r * to_radians 180 * (o.1 * o.2)⟩ := by
  simp [props]

theorem props_rectangle (s o : ℝ × ℝ) :
    props (.rectangle s o) =
      ⟨|s.1 * s.2|, (o.1 + s.1 * 0.5, o.2 + s.2 * 0.5),
       (|(s.1 * s.1 / 3 + (s.1 + o.1) * o.1) * (s.1 * s.2)|,
        |(s.2 * s.2 / 3 + (s.2 + o.2) * o.2) * (s.1 * s.2)|),
       (|s.1| * (s.1 * 0.5 + o.1)) * (|s.2| * (s.2 * 0.5 + o.2))⟩ := by
  simp [props]

theorem props_translated (t : Sec) (o : ℝ × ℝ) :
    props (.translated t o) =
      ⟨(props t).area,
       ((props t).centroid.1 + o.1, (props t).centroid.2 + o.2),
       ((props t).moi.1 + (o.1 + (props t).centroid.1 * 2) * o.1 * (props t).area,
        (props t).moi.2 + (o.2 + (props t).centroid.2 * 2) * o.2 * (props t).area),
       (props t).poi +
         (sortAbs [(props t).centroid.2 * o.1, (props t).centroid.1 * o.2,
            o.1 * o.2]).sum * (props t).area⟩ := by
  simp [props]

theorem props_rotated (t : Sec) (angle : ℝ) :
    props (.rotated t angle) =
      ⟨(props t).area,
       ((props t).centroid.1 * Real.cos angle - (props t).centroid.2 * Real.sin angle,
        (props t).centroid.2 * Real.cos angle + (props t).centroid.1 * Real.sin angle),
       ((sortAbs [((props t).moi.1 + (props t).moi.2) * 0.5,
           ((props t).moi.1 - (props t).moi.2) * (Real.cos (angle * (-2)) * 0.5),
           (props t).poi * Real.sin (angle * (-2))]).sum,
        (sortAbs [((props t).moi.1 + (props t).moi.2) * 0.5,
           ((props t).moi.1 - (props t).moi.2) * (Real.cos (angle * (-2)) * 0.5) * (-1),
           (props t).poi * Real.sin (angle * (-2)) * (-1)]).sum),
       ((props t).moi.2 - (props t).moi.1) * Real.sin (angle * (-2)) * 0.5 +
         (props t).poi * Real.cos (angle * (-2))⟩ := by
  simp [props]

theorem props_weighted (t : Sec) (w : ℝ) :
    props (.weighted t w) =
      ⟨(props t).area * w, (props t).centroid,
       ((props t).moi.1 * w, (props t).moi.2 * w), (props t).poi * w⟩ := by
  simp [props]

theorem props_combined (l : List Sec) :
    props (.combined l) =
      ⟨(sortAbs (l.map fun s => (props s).area)).sum,
       ((sortAbs (l.map fun s => (props s).centroid.1 * (props s).area)).sum /
          (sortAbs (l.map fun s => (props s).area)).sum,
        (sortAbs (l.map fun s => (props s).centroid.2 * (props s).area)).sum /
          (sortAbs (l.map fun s => (props s).area)).sum),
       ((sortAbs (l.map fun s => (props s).moi.1)).sum,
        (sortAbs (l.map fun s => (props s).moi.2)).sum),
       (sortAbs (l.map fun s => (props s).poi)).sum⟩ := by
  simp [props, List.map_map, Function.comp_def, List.attach_map_val]

theorem atan2_of_pos {y x : ℝ} (hx : 0 < x) : atan2 y x = arctan (y / x) := by
  simp [atan2, hx]

theorem atan2_zero_zero : atan2 0 0 = 0 := by
  simp [atan2]

theorem atan2_neg_zero {y : ℝ} (hy : y < 0) : atan2 y 0 = -(π / 2) := by
  simp [atan2, hy, asymm hy]

/-- Claim C5 (confirmed): `CircleSection` reports `area = π·r²`,
`centroid = offset`, `moment_of_inertia[i] = (r² + 4·offset[i]²)·r²·(π/4)` and
`product_of_inertia = π·r²·offset[0]·offset[1]`; for offset `[0, 0]` the
product of inertia is `0` and both moment components equal `π·r⁴/4`. -/
theorem circle_section_properties (r x y : ℝ) :
    area (.circle r (x, y)) = π * r ^ 2 ∧
    centroid (.circle r (x, y)) = (x, y) ∧
    moment_of_inertia (.circle r (x, y)) =
      ((r ^ 2 + 4 * x ^ 2) * r ^ 2 * (π / 4), (r ^ 2 + 4 * y ^ 2) * r ^ 2 * (π / 4)) ∧
    product_of_inertia (.circle r (x, y)) = π * r ^ 2 * (x * y) ∧
    product_of_inertia (.circle r (0, 0)) = 0 ∧
    moment_of_inertia (.circle r (0, 0)) = (π * r ^ 4 / 4, π * r ^ 4 / 4) := by
  refine ⟨?_, ?_, ?_, ?_, ?_, ?_⟩
  · simp only [area, props_circle, to_radians_180]
    ring
  · simp [centroid, props_circle]
  · simp only [moment_of_inertia, props_circle, to_radians_45, Prod.mk.injEq]
    constructor <;> ring
  · simp only [product_of_inertia, props_circle, to_radians_180]
    ring
  · simp [product_of_inertia, props_circle]
  · simp only [moment_of_inertia, props_circle, to_radians_45, Prod.mk.injEq]
    constructor <;> ring

/-- Claim C6 counterexample: for size `[1, -1]` and offset `[0, 0]` the code
returns `moment_of_inertia[0] = 1/3` (an absolute value), not the claimed
`h·b³/3 = -1/3`, so the edge-moment identity fails for negative sizes. -/
theorem rectangle_negative_size_edge_moment_fails :
    moment_of_inertia (.rectangle (1, -1) (0, 0)) ≠
      ((-1 : ℝ) * 1 ^ 3 / 3, 1 * (-1 : ℝ) ^ 3 / 3) := by
  have h : moment_of_inertia (.rectangle (1, -1) (0, 0)) = ((1 : ℝ) / 3, 1 / 3) := by
    simp only [moment_of_inertia, props_rectangle]
    norm_num
  rw [h]
  intro hq
  rw [Prod.mk.injEq] at hq
  norm_num at hq

/-- Claim C6 (corrected): `RectangleSection` reports
`moment_of_inertia[i] = |(size[i]²/3 + (size[i] + offset[i])·offset[i])·size[0]·size[1]|`
and `product_of_inertia = Π_i |size[i]|·(size[i]/2 + offset[i])`; at offset
`[0, 0]` this gives `[|h·b³|/3, |b·h³|/3]` and `|b|·b·|h|·h/4`, which reduce to
the claimed `[h·b³/3, b·h³/3]` and `b²·h²/4` when both sizes are non-negative
(the absolute values flip the sign of the claimed formulas for negative sizes). -/
theorem rectangle_section_properties (b h ox oy : ℝ) :
    moment_of_inertia (.rectangle (b, h) (ox, oy)) =
      (|(b ^ 2 / 3 + (b + ox) * ox) * (b * h)|, |(h ^ 2 / 3 + (h + oy) * oy) * (b * h)|) ∧
    product_of_inertia (.rectangle (b, h) (ox, oy)) =
      (|b| * (b / 2 + ox)) * (|h| * (h / 2 + oy)) ∧
    moment_of_inertia (.rectangle (b, h) (0, 0)) = (|h * b ^ 3| / 3, |b * h ^ 3| / 3) ∧
    product_of_inertia (.rectangle (b, h) (0, 0)) = |b| * b * |h| * h / 4 ∧
    (0 ≤ b → 0 ≤ h →
      moment_of_inertia (.rectangle (b, h) (0, 0)) = (h * b ^ 3 / 3, b * h ^ 3 / 3) ∧
      product_of_inertia (.rectangle (b, h) (0, 0)) = b ^ 2 * h ^ 2 / 4) := by
  refine ⟨?_, ?_, ?_, ?_, ?_⟩
  · simp only [moment_of_inertia, props_rectangle, Prod.mk.injEq]
    constructor <;> (congr 1; ring)
  · simp only [product_of_inertia, props_rectangle]
    ring
  · simp only [moment_of_inertia, props_rectangle, Prod.mk.injEq]
    constructor
    · rw [show (b * b / 3 + (b + 0) * 0) * (b * h) = h * b ^ 3 / 3 by ring, abs_div]
      norm_num
    · rw [show (h * h / 3 + (h + 0) * 0) * (b * h) = b * h ^ 3 / 3 by ring, abs_div]
      norm_num
  · simp only [product_of_inertia, props_rectangle]
    ring
  · intro hb hh
    constructor
    · simp only [moment_of_inertia, props_rectangle, Prod.mk.injEq]
      constructor
      · rw [show (b * b / 3 + (b + 0) * 0) * (b * h) = h * b ^ 3 / 3 by ring]
        exact abs_of_nonneg (div_nonneg (mul_nonneg hh (pow_nonneg hb 3)) (by norm_num))
      · rw [show (h * h / 3 + (h + 0) * 0) * (b * h) = b * h ^ 3 / 3 by ring]
        exact abs_of_nonneg (div_nonneg (mul_nonneg hb (pow_nonneg hh 3)) (by norm_num))
    · simp only [product_of_inertia, props_rectangle]
      rw [abs_of_nonneg hb, abs_of_nonneg hh]
      ring

/-- Claim C6 witness: the edge-moment identity instantiated at the
non-negative size `[2, 3]`. -/
theorem rectangle_section_properties_witness :
    moment_of_inertia (.rectangle (2, 3) (0, 0)) = ((3 : ℝ) * 2 ^ 3 / 3, 2 * 3 ^ 3 / 3) ∧
    product_of_inertia (.rectangle (2, 3) (0, 0)) = (2 : ℝ) ^ 2 * 3 ^ 2 / 4 :=
  (rectangle_section_properties 2 3 0 0).2.2.2.2 zero_le_two zero_le_three

/-- Claim C7 (confirmed): `RotatedSection` applies the Mohr's-circle
axis-rotation transform with the sign of the angle flipped:
`moment_of_inertia = [average + difference + cross, average - difference - cross]`
with `average = (Jy + Jx)/2`, `difference = (Jy - Jx)/2 · cos(-2·angle)`,
`cross = Jxy · sin(-2·angle)`, and
`product_of_inertia = (Jx - Jy)·sin(-2·angle)/2 + Jxy·cos(-2·angle)`;
`area` passes through unchanged. -/
theorem rotated_section_transform (s : Sec) (θ : ℝ) :
    moment_of_inertia (.rotated s θ) =
      (((moment_of_inertia s).1 + (moment_of_inertia s).2) / 2 +
         ((moment_of_inertia s).1 - (moment_of_inertia s).2) / 2 * Real.cos (-(2 * θ)) +
         product_of_inertia s * Real.sin (-(2 * θ)),
       ((moment_of_inertia s).1 + (moment_of_inertia s).2) / 2 -
         ((moment_of_inertia s).1 - (moment_of_inertia s).2) / 2 * Real.cos (-(2 * θ)) -
         product_of_inertia s * Real.sin (-(2 * θ))) ∧
    product_of_inertia (.rotated s θ) =
      ((moment_of_inertia s).2 - (moment_of_inertia s).1) * Real.sin (-(2 * θ)) / 2 +
        product_of_inertia s * Real.cos (-(2 * θ)) ∧
    area (.rotated s θ) = area s := by
  refine ⟨?_, ?_, ?_⟩
  · simp only [moment_of_inertia, product_of_inertia, props_rotated, sortAbs_sum,
      List.sum_cons, List.sum_nil, Prod.mk.injEq]
    constructor <;> (rw [show θ * (-2) = -(2 * θ) by ring]; ring)
  · simp only [moment_of_inertia, product_of_inertia, props_rotated]
    rw [show θ * (-2) = -(2 * θ) by ring]
    ring
  · simp [area, props_rotated]

/-- Claim C8 (confirmed): wrapping any section in
`TranslatedSection::new(S, [0.0, 0.0])` leaves `area`, `centroid`,
`moment_of_inertia` and `product_of_inertia` unchanged. -/
theorem translated_zero_offset_identity (s : Sec) :
    area (.translated s (0, 0)) = area s ∧
    centroid (.translated s (0, 0)) = centroid s ∧
    moment_of_inertia (.translated s (0, 0)) = moment_of_inertia s ∧
    product_of_inertia (.translated s (0, 0)) = product_of_inertia s := by
  refine ⟨?_, ?_, ?_, ?_⟩
  · simp [area, props_translated]
  · simp [centroid, props_translated]
  · simp [moment_of_inertia, props_translated]
  · simp [product_of_inertia, props_translated, sortAbs_sum]

/-- Claim C9 (confirmed): `TranslatedSection` applies the parallel-axis
theorem incrementally,
`moment_of_inertia[i] = origin.moment_of_inertia[i] + (offset[i] + 2·origin.centroid[i])·offset[i]·origin.area`,
and `product_of_inertia = origin.product_of_inertia + origin.area · (offset[0]·centroid[1] + offset[1]·centroid[0] + offset[0]·offset[1])`,
the three cross terms being summed in ascending absolute magnitude before the
final addition. -/
theorem translated_section_parallel_axis (s : Sec) (ox oy : ℝ) :
    moment_of_inertia (.translated s (ox, oy)) =
      ((moment_of_inertia s).1 + (ox + 2 * (centroid s).1) * ox * area s,
       (moment_of_inertia s).2 + (oy + 2 * (centroid s).2) * oy * area s) ∧
    product_of_inertia (.translated s (ox, oy)) =
      product_of_inertia s +
        area s * (ox * (centroid s).2 + oy * (centroid s).1 + ox * oy) := by
  constructor
  · simp only [moment_of_inertia, centroid, area, props_translated, Prod.mk.injEq]
    constructor <;> ring
  · simp only [product_of_inertia, centroid, area, props_translated, sortAbs_sum,
      List.sum_cons, List.sum_nil]
    ring

/-- Claim C4 (confirmed): `CombinedSection` sums its children's `area`,
per-component `moment_of_inertia` and `product_of_inertia` (each sum is
performed on the ascending-absolute-value reordering, which leaves the exact
value unchanged), and its `centroid[i]` is
`(Σ child.centroid[i]·child.area) / (Σ child.area)`; in particular for two
children the properties are the pairwise sums and the area-weighted centroid
average. -/
theorem combined_section_additivity (l : List Sec) (A B : Sec) :
    area (.combined l) = (l.map fun s => area s).sum ∧
    moment_of_inertia (.combined l) =
      ((l.map fun s => (moment_of_inertia s).1).sum,
       (l.map fun s => (moment_of_inertia s).2).sum) ∧
    product_of_inertia (.combined l) = (l.map fun s => product_of_inertia s).sum ∧
    centroid (.combined l) =
      ((l.map fun s => (centroid s).1 * area s).sum / (l.map fun s => area s).sum,
       (l.map fun s => (centroid s).2 * area s).sum / (l.map fun s => area s).sum) ∧
    area (.combined [A, B]) = area A + area B ∧
    moment_of_inertia (.combined [A, B]) =
      ((moment_of_inertia A).1 + (moment_of_inertia B).1,
       (moment_of_inertia A).2 + (moment_of_inertia B).2) ∧
    product_of_inertia (.combined [A, B]) = product_of_inertia A + product_of_inertia B ∧
    centroid (.combined [A, B]) =
      (((centroid A).1 * area A + (centroid B).1 * area B) / (area A + area B),
       ((centroid A).2 * area A + (centroid B).2 * area B) / (area A + area B)) := by
  refine ⟨?_, ?_, ?_, ?_, ?_, ?_, ?_, ?_⟩
  · simp [area, props_combined, sortAbs_sum]
  · simp [moment_of_inertia, props_combined, sortAbs_sum]
  · simp [product_of_inertia, props_combined, sortAbs_sum]
  · simp [centroid, area, props_combined, sortAbs_sum]
  · simp [area, props_combined, sortAbs_sum]
  · simp [moment_of_inertia, props_combined, sortAbs_sum]
  · simp [product_of_inertia, props_combined, sortAbs_sum]
  · simp [centroid, area, props_combined, sortAbs_sum]

theorem principal_axis_circle_one_one :
    principal_axis (.circle 1 (1, 1)) = -(π / 4) := by
  have hpoi : product_of_inertia (.circle 1 (1, 1)) * (-2) = π * (-2) := by
    simp [product_of_inertia, props_circle, to_radians_180]
  have hmoi : (moment_of_inertia (.circle 1 (1, 1))).2 -
      (moment_of_inertia (.circle 1 (1, 1))).1 = 0 := by
    simp [moment_of_inertia, props_circle]
  have hneg : π * (-2) < 0 := by
    have := pi_pos
    linarith
  rw [principal_axis, hpoi, hmoi, atan2_neg_zero hneg]
  ring

theorem principal_axis_centroidal_circle_one_one :
    principal_axis_centroidal (.circle 1 (1, 1)) = 0 := by
  have e1 : -2 * (product_of_inertia (.circle 1 (1, 1)) -
      (centroid (.circle 1 (1, 1))).1 * (centroid (.circle 1 (1, 1))).2 *
        area (.circle 1 (1, 1))) = 0 := by
    simp [product_of_inertia, centroid, area, props_circle, to_radians_180]
  have e2 : (moment_of_inertia (.circle 1 (1, 1))).2 -
      (centroid (.circle 1 (1, 1))).2 ^ 2 * area (.circle 1 (1, 1)) -
      ((moment_of_inertia (.circle 1 (1, 1))).1 -
        (centroid (.circle 1 (1, 1))).1 ^ 2 * area (.circle 1 (1, 1))) = 0 := by
    simp [moment_of_inertia, centroid, area, props_circle, to_radians_180, to_radians_45]
  rw [principal_axis_centroidal, e1, e2, atan2_zero_zero, zero_div]

/-- Claim C1 counterexample: for the unit circle at offset `[1, 1]` the code's
`principal_axis` returns `-π/4`, while the claimed centroidal-correction
formula gives `atan2(0, 0)/2 = 0`, so `principal_axis` does not equal the
claimed expression. -/
theorem principal_axis_skips_centroidal_correction :
    principal_axis (.circle 1 (1, 1)) ≠ principal_axis_centroidal (.circle 1 (1, 1)) := by
  rw [principal_axis_circle_one_one, principal_axis_centroidal_circle_one_one]
  have := pi_pos
  intro hq
  linarith [hq]

/-- Claim C1 (amended): `principal_axis` computes
`atan2(-2·Jxy, Jx - Jy)/2` directly from the origin-referenced properties,
with no centroidal correction; consequently the end-to-end recovery holds for
a centered rectangle: a rectangle of width 4 and height 6 with centroid at the
origin, rotated by any angle `θ` with `|θ| < π/4` (in particular `-15°`),
yields `principal_axis = θ` exactly. -/
theorem principal_axis_rotated_centered_rectangle (θ : ℝ)
    (h1 : -(π / 4) < θ) (h2 : θ < π / 4) :
    (∀ s : Sec, principal_axis s =
        atan2 (product_of_inertia s * (-2))
          ((moment_of_inertia s).2 - (moment_of_inertia s).1) * 0.5) ∧
    principal_axis (.rotated (.rectangle (4, 6) (-2, -3)) θ) = θ := by
  refine ⟨fun s => rfl, ?_⟩
  have hrect : props (.rectangle (4, 6) (-2, -3)) = ⟨24, (0, 0), (32, 72), 0⟩ := by
    rw [props_rectangle]
    norm_num
  have hmoi : moment_of_inertia (.rotated (.rectangle (4, 6) (-2, -3)) θ) =
      (52 - 20 * Real.cos (2 * θ), 52 + 20 * Real.cos (2 * θ)) := by
    simp only [moment_of_inertia, props_rotated, hrect, sortAbs_sum,
      List.sum_cons, List.sum_nil, Prod.mk.injEq]
    constructor <;> (rw [show θ * (-2) = -(2 * θ) by ring, Real.cos_neg]; ring)
  have hpoi : product_of_inertia (.rotated (.rectangle (4, 6) (-2, -3)) θ) =
      20 * Real.sin (-(2 * θ)) := by
    simp only [product_of_inertia, props_rotated, hrect]
    rw [show θ * (-2) = -(2 * θ) by ring]
    ring
  have hc : 0 < Real.cos (2 * θ) :=
    Real.cos_pos_of_mem_Ioo ⟨by linarith, by linarith⟩
  simp only [principal_axis, hpoi, hmoi]
  have e1 : 20 * Real.sin (-(2 * θ)) * (-2) = 40 * Real.sin (2 * θ) := by
    rw [Real.sin_neg]
    ring
  have e2 : 52 + 20 * Real.cos (2 * θ) - (52 - 20 * Real.cos (2 * θ)) =
      40 * Real.cos (2 * θ) := by ring
  rw [e1, e2, atan2_of_pos (mul_pos (by norm_num) hc)]
  rw [show 40 * Real.sin (2 * θ) / (40 * Real.cos (2 * θ)) = Real.tan (2 * θ) by
    rw [Real.tan_eq_sin_div_cos, mul_div_mul_left _ _ (by norm_num : (40 : ℝ) ≠ 0)]]
  rw [Real.arctan_tan (by linarith) (by linarith)]
  ring

/-- Claim C1 witness: at `θ = -15° = -π/12` the centered 4×6 rectangle's
principal axis is recovered exactly. -/
theorem principal_axis_rotated_centered_rectangle_witness :
    to_radians (-15) = -(π / 12) ∧ -(π / 4) < -(π / 12) ∧ -(π / 12) < π / 4 ∧
      principal_axis (.rotated (.rectangle (4, 6) (-2, -3)) (-(π / 12))) = -(π / 12) := by
  have hp := pi_pos
  have h1 : -(π / 4) < -(π / 12) := by linarith
  have h2 : -(π / 12) < π / 4 := by linarith
  exact ⟨by rw [to_radians]; ring, h1, h2,
    (principal_axis_rotated_centered_rectangle (-(π / 12)) h1 h2).2⟩

/-- Claim C2 counterexample: the unit circle at offset `[1, 1]` has
`principal_axis = -π/4 ≠ 0`, so a circle's principal axis is not `0` for
every offset. -/
theorem principal_axis_offset_circle_ne_zero :
    principal_axis (.circle 1 (1, 1)) ≠ 0 := by
  rw [principal_axis_circle_one_one]
  have := pi_pos
  intro hq
  linarith [hq]

/-- Claim C2 (amended): a circle centered on the reference origin
(offset `[0, 0]`) has `principal_axis = 0` for every radius, via
`atan2(0, 0) = 0` with no division and no undefined value; for nonzero
offsets the raw (uncorrected) moments make the result generally nonzero. -/
theorem principal_axis_centered_circle (r : ℝ) :
    principal_axis (.circle r (0, 0)) = 0 := by
  have e1 : product_of_inertia (.circle r (0, 0)) * (-2) = 0 := by
    simp [product_of_inertia, props_circle]
  have e2 : (moment_of_inertia (.circle r (0, 0))).2 -
      (moment_of_inertia (.circle r (0, 0))).1 = 0 := by
    simp [moment_of_inertia, props_circle]
  rw [principal_axis, e1, e2, atan2_zero_zero, zero_mul]

theorem nonnegWeights_combined {l : List Sec} :
    nonnegWeights (.combined l) ↔ ∀ s ∈ l, nonnegWeights s := by
  simp only [nonnegWeights]
  constructor
  · intro h s hs
    exact h ⟨s, hs⟩ (List.mem_attach l ⟨s, hs⟩)
  · intro h s _
    exact h s.1 s.2

theorem area_nonneg_aux (n : ℕ) :
    ∀ s : Sec, sizeOf s ≤ n → nonnegWeights s → 0 ≤ area s := by
  induction n with
  | zero =>
    intro s hs _
    exfalso
    cases s <;> simp at hs
  | succ n ih =>
    intro s hs h
    cases s with
    | circle r o =>
      simp only [area, props_circle, to_radians_180]
      exact mul_nonneg (mul_self_nonneg r) pi_pos.le
    | rectangle sz o =>
      simp only [area, props_rectangle]
      positivity
    | translated t o =>
      simp only [area, props_translated]
      simp only [nonnegWeights] at h
      simp only [Sec.translated.sizeOf_spec] at hs
      exact ih t (by omega) h
    | rotated t a =>
      simp only [area, props_rotated]
      simp only [nonnegWeights] at h
      simp only [Sec.rotated.sizeOf_spec] at hs
      exact ih t (by omega) h
    | weighted t w =>
      simp only [area, props_weighted]
      simp only [nonnegWeights] at h
      simp only [Sec.weighted.sizeOf_spec] at hs
      exact mul_nonneg (ih t (by omega) h.2) h.1
    | combined l =>
      simp only [area, props_combined, sortAbs_sum]
      apply List.sum_nonneg
      intro x hx
      obtain ⟨t, htl, rfl⟩ := List.mem_map.mp hx
      have hsz : sizeOf t ≤ n := by
        have h1 := List.sizeOf_lt_of_mem htl
        simp only [Sec.combined.sizeOf_spec] at hs
        omega
      exact ih t hsz ((nonnegWeights_combined.mp h) t htl)

/-- Claim C3 counterexample: `WeightedSection` with weight `-1` around a unit
circle reports the negative area `-π`, so not every `Section` implementation
returns a non-negative area. -/
theorem weighted_negative_area :
    area (.weighted (.circle 1 (0, 0)) (-1)) < 0 := by
  have h : area (.weighted (.circle 1 (0, 0)) (-1)) = -π := by
    simp [area, props_weighted, props_circle, to_radians_180]
  rw [h]
  exact neg_lt_zero.mpr pi_pos

/-- Claim C3 (amended): `area` is non-negative on every section tree whose
`WeightedSection` weights are all non-negative — the primitives take absolute
values or squares, the decorators pass the area through or scale it by the
weight, and the aggregator sums — but a negative weight yields a negative
area (the code's own tests assert `area = -22.5` for weight `-1.5`). -/
theorem area_nonneg_of_nonneg_weights (s : Sec) (h : nonnegWeights s) :
    0 ≤ area s :=
  area_nonneg_aux (sizeOf s) s le_rfl h

/-- Claim C3 witness: a weighted circle with the non-negative weight `2` has
non-negative area. -/
theorem area_nonneg_of_nonneg_weights_witness :
    nonnegWeights (.weighted (.circle 3 (1, 2)) 2) ∧
      0 ≤ area (.weighted (.circle 3 (1, 2)) 2) := by
  have h : nonnegWeights (.weighted (.circle 3 (1, 2)) 2) := by
    simp only [nonnegWeights]
    exact ⟨by norm_num, trivial⟩
  exact ⟨h, area_nonneg_of_nonneg_weights _ h⟩

end Strust

end
